import Mathlib

/-!
Verification of the incremental synchronization engine of the
SI201 final project (college-football games + daily weather cached in a
local SQLite store).

Shallow embedding conventions:
* The SQLite store is a record `DB` of the four tables (`dates`,
  `opponents`, `cfb_games`, `weather`) together with the AUTOINCREMENT
  counters of the two dimension tables.  Table rows are Lean structures
  mirroring the columns; a nullable foreign key is an `Option Nat`.
* Raw JSON records are structures whose fields are `Option`s: `none`
  models a missing key, and `dict.get(k, default)` becomes `Option.getD`.
* Python code that can raise is embedded in `Except PyErr`; the remote
  weather fetch is an oracle parameter `fetch : String → Except PyErr
  RawWeather`.
* Weather measurements are floats in the source; no claim computes with
  them (they are only carried through), so they are represented by `Int`.
* Python's `s.split("T")[0]` / `"T" in s` are embedded on `String.data`:
  the component before the first occurrence of a single-character
  separator is `takeWhile (· ≠ 'T')`.
-/

namespace SI201

/-! ## Normalizer: cfb.py `process_cfb_data` -/

/-- A raw game record from the College Football Data API
(`g` in `process_cfb_data`); `none` models a missing JSON key. -/
structure RawGame where
  startDate : Option String
  homeTeam : Option String
  awayTeam : Option String
  homePoints : Option Int
  awayPoints : Option Int
deriving Repr, DecidableEq

/-- A processed game record (the dict appended to `games`). -/
structure Game where
  date : String
  opponent : String
  points_for : Int
  points_against : Int
  home : Int
deriving Repr, DecidableEq

/-- cfb.py line 57: `date_raw.split("T")[0] if "T" in date_raw else date_raw`. -/
def dateClean (s : String) : String :=
  if s.data.contains 'T' then ⟨s.data.takeWhile (fun c => c ≠ 'T')⟩ else s

/-- The body of the `for g in raw_data` loop of `process_cfb_data`
(cfb.py lines 55-79). -/
def process_cfb_game (g : RawGame) (TEAM : String) : Game :=
  let date_raw := g.startDate.getD "unknown"
  let date_clean := dateClean date_raw
  let home_team := g.homeTeam.getD "unknown"
  let away_team := g.awayTeam.getD "unknown"
  if home_team = TEAM then
    { date := date_clean, opponent := away_team,
      points_for := g.homePoints.getD 0, points_against := g.awayPoints.getD 0,
      home := 1 }
  else
    { date := date_clean, opponent := home_team,
      points_for := g.awayPoints.getD 0, points_against := g.homePoints.getD 0,
      home := 0 }

/-- cfb.py `process_cfb_data`: one output record per input record. -/
def process_cfb_data (raw_data : List RawGame) (TEAM : String := "Michigan") :
    List Game :=
  raw_data.map (fun g => process_cfb_game g TEAM)

/-! ## Normalizer: weather.py `process_weather_data` -/

/-- The `"daily"` block of an open-meteo response; each key maps to an
array of values (one per requested day). `none` models a missing key. -/
structure Daily where
  time : Option (List String)
  temperature_2m_mean : Option (List Int)
  wind_speed_10m_mean : Option (List Int)
  cloud_cover_mean : Option (List Int)
  precipitation_sum : Option (List Int)
deriving Repr, DecidableEq

/-- A raw open-meteo response (`conditions` in `process_weather_data`). -/
structure RawWeather where
  daily : Option Daily
deriving Repr, DecidableEq

/-- Python exceptions relevant to the sync engine. -/
inductive PyErr where
  | keyError
  | indexError
  | remoteFetchError
deriving Repr, DecidableEq

/-- A processed weather record (the dict returned by `process_weather_data`). -/
structure WeatherRec where
  date : String
  temp_mean : Int
  wind_speed : Int
  cloud_cover : Int
  precipitation : Int
deriving Repr, DecidableEq

/-- Python `conditions['daily'][key][0]`: a missing key raises `KeyError`,
indexing an empty array raises `IndexError`. -/
def idx0 {α : Type} : Option (List α) → Except PyErr α
  | none => .error .keyError
  | some [] => .error .indexError
  | some (a :: _) => .ok a

/-- weather.py `process_weather_data` (lines 59-72): direct subscripting,
so any missing key or empty array raises rather than defaulting. -/
def process_weather_data (conditions : RawWeather) : Except PyErr WeatherRec :=
  match conditions.daily with
  | none => .error .keyError
  | some d => do
    let date ← idx0 d.time
    let t ← idx0 d.temperature_2m_mean
    let w ← idx0 d.wind_speed_10m_mean
    let c ← idx0 d.cloud_cover_mean
    let p ← idx0 d.precipitation_sum
    .ok ⟨date, t, w, c, p⟩

/-! ## generate_dates (weather.py lines 16-29)

`datetime.date` values are represented by their day ordinals
(`datetime.date.toordinal`): `strptime`/`strftime` translate between
well-formed `%Y-%m-%d` strings and ordinals bijectively and
order-preservingly, and `timedelta(days=7)` is `+ 7` on ordinals. -/

/-- weather.py `generate_dates` on day ordinals: collect `start`,
`start+7`, ... while `current <= end`. -/
def generate_dates (start stop : Nat) : List Nat :=
  if h : start ≤ stop then start :: generate_dates (start + 7) stop else []
termination_by stop + 1 - start
decreasing_by omega

/-! ## The store -/

/-- A row of the `dates` dimension table (`id`, `day`). -/
structure DateRow where
  id : Nat
  day : String
deriving Repr, DecidableEq

/-- A row of the `opponents` dimension table (`id`, `name`). -/
structure OppRow where
  id : Nat
  name : String
deriving Repr, DecidableEq

/-- A row of the `cfb_games` fact table (surrogate `id` column omitted:
no code reads it back). -/
structure GameRow where
  date_id : Nat
  opponent_id : Nat
  points_for : Int
  points_against : Int
  home : Int
deriving Repr, DecidableEq

/-- A row of the `Weather` fact table; `date_id` is nullable (weather.py
inserts `None` when `get_date_id` finds no row). -/
structure WeatherRow where
  date_id : Option Nat
  temp_mean : Int
  wind_speed : Int
  cloud_cover : Int
  precipitation : Int
deriving Repr, DecidableEq

/-- The SQLite store: the four tables plus the AUTOINCREMENT counters of
the two dimension tables (sqlite's `lastrowid` for a fresh insert). -/
structure DB where
  dates : List DateRow
  opponents : List OppRow
  cfb_games : List GameRow
  weather : List WeatherRow
  next_date_id : Nat
  next_opp_id : Nat
deriving Repr, DecidableEq

/-- A freshly created database (AUTOINCREMENT starts at 1). -/
def emptyDB : DB := ⟨[], [], [], [], 1, 1⟩

/-! ## Dimension resolution -/

/-- cfb.py `get_opponent_id` (lines 123-139): look the name up in
`opponents`; if found return its id, otherwise insert and return
`cur.lastrowid`. -/
def get_opponent_id (db : DB) (opponent_name : String) : Nat × DB :=
  match db.opponents.find? (fun r => r.name == opponent_name) with
  | some r => (r.id, db)
  | none =>
      (db.next_opp_id,
       { db with
          opponents := db.opponents ++ [⟨db.next_opp_id, opponent_name⟩],
          next_opp_id := db.next_opp_id + 1 })

/-- weather.py `get_date_id` (lines 119-124) and cfb.py `get_date_id`
(lines 141-155): pure lookup, `None` when the day is absent. -/
def get_date_id (db : DB) (date : String) : Option Nat :=
  (db.dates.find? (fun r => r.day == date)).map (fun r => r.id)

/-- cfb.py lines 226-227: `INSERT INTO dates (day) VALUES (?)` followed by
`cur.lastrowid`. -/
def insert_date (db : DB) (day : String) : Nat × DB :=
  (db.next_date_id,
   { db with
      dates := db.dates ++ [⟨db.next_date_id, day⟩],
      next_date_id := db.next_date_id + 1 })

/-! ## cfb.py `store_cfb_data` -/

/-- cfb.py lines 223-228: look the date up; if absent, insert it and use
`cur.lastrowid` (the "[INFO] Added missing date" path). -/
def resolve_game_date (db : DB) (day : String) : Nat × DB :=
  match get_date_id db day with
  | some i => (i, db)
  | none => insert_date db day

/-- The `for g in batch` loop of `store_cfb_data` (cfb.py lines 221-230):
resolve the opponent (inserting if new), resolve the date (inserting if
missing), and accumulate the row tuple in `inserts`. -/
def store_cfb_loop : List Game → DB → List GameRow → DB × List GameRow
  | [], db, inserts => (db, inserts)
  | g :: rest, db, inserts =>
      let (opponent_id, db) := get_opponent_id db g.opponent
      let (date_id, db) := resolve_game_date db g.date
      store_cfb_loop rest db
        (inserts ++ [⟨date_id, opponent_id, g.points_for, g.points_against, g.home⟩])

/-- cfb.py `store_cfb_data` (lines 180-240).  Faithful to the source:
`rows_db = cur.fetchall()` (line 205) follows no `SELECT` — the last
statement executed on the cursor is the `CREATE TABLE IF NOT EXISTS`
DDL, and sqlite3's `fetchall` after a non-`SELECT` statement returns the
empty list — so `games_db` is always the empty set and the `remaining`
filter keeps every candidate.  The function returns the committed store
and `batch` (the list of processed games it inserted). -/
def store_cfb_data (games : List Game) (db : DB) : DB × List Game :=
  let rows_db : List (String × String × Int × Int × Int) := []
  let games_db := rows_db
  let remaining := games.filter (fun g =>
    !(games_db.contains (g.date, g.opponent, g.points_for, g.points_against, g.home)))
  let batch_size := 25
  let batch := remaining.take batch_size
  let (db, inserts) := store_cfb_loop batch db []
  let db := { db with cfb_games := db.cfb_games ++ inserts }
  (db, batch)

/-! ## weather.py `grab_dates`, `add_data` -/

/-- weather.py line 14. -/
def BATCH_SIZE : Nat := 25

/-- weather.py `grab_dates` (lines 127-137): `SELECT dates.day FROM dates
JOIN Weather ON Weather.date_id = dates.id` — the days whose dimension id
is referenced by some (non-NULL) weather row. -/
def grab_dates (db : DB) : List String :=
  (db.dates.filter (fun d => db.weather.any (fun w => w.date_id == some d.id))).map
    (fun d => d.day)

/-- weather.py lines 141-143: the novelty filter of `add_data`
(`remaining = [d for d in days if d not in current_dates]`). -/
def filter_new (days : List String) (db : DB) : List String :=
  let current_dates := grab_dates db
  days.filter (fun d => !(current_dates.contains d))

/-- The `for day in batch` loop of `add_data` (weather.py lines 145-157):
fetch, normalize, resolve the date id, and execute the insert on the
cursor.  Any exception propagates, abandoning the rest of the loop. -/
def add_data_loop (fetch : String → Except PyErr RawWeather) (db : DB) :
    List String → Except PyErr DB
  | [] => .ok db
  | day :: rest =>
    match fetch day with
    | .error e => .error e
    | .ok raw_weather =>
      match process_weather_data raw_weather with
      | .error e => .error e
      | .ok cleaned =>
        let date_id := get_date_id db day
        add_data_loop fetch
          { db with
            weather := db.weather ++
              [⟨date_id, cleaned.temp_mean, cleaned.wind_speed,
                cleaned.cloud_cover, cleaned.precipitation⟩] }
          rest

/-- weather.py `add_data` (lines 140-160): filter the candidates against
the store, truncate to `BATCH_SIZE`, drive the loop, then `conn.commit()`
and return `batch`.  The `INSERT OR IGNORE` is a plain insert: the
`Weather` table has no uniqueness constraint the `OR IGNORE` could act
on. -/
def add_data (fetch : String → Except PyErr RawWeather) (days : List String)
    (db : DB) : Except PyErr (DB × List String) :=
  let remaining := filter_new days db
  let batch := remaining.take BATCH_SIZE
  match add_data_loop fetch db batch with
  | .error e => .error e
  | .ok db => .ok (db, batch)

/-- The store visible after a run of `add_data`: on success the committed
new state; on an exception the `conn.commit()` on weather.py line 159 is
never reached, the connection's open transaction is rolled back, and the
store keeps its last-committed state. -/
def run_add_data (fetch : String → Except PyErr RawWeather) (days : List String)
    (db : DB) : DB :=
  match add_data fetch days db with
  | .ok (db', _) => db'
  | .error _ => db

/-! ## Derived predicates -/

/-- A game fact row's dimension references exist in the store. -/
def rowRefs (db : DB) (row : GameRow) : Prop :=
  (∃ r ∈ db.dates, r.id = row.date_id) ∧ (∃ o ∈ db.opponents, o.id = row.opponent_id)

/-- Well-formedness sqlite enforces on the `dates` dimension: `id` is a
primary key, so no two rows share an id. -/
def dates_wf (db : DB) : Prop :=
  (db.dates.map (fun r => r.id)).Nodup

/-- The non-NULL date references of the weather fact table. -/
def weather_date_ids (db : DB) : List Nat :=
  db.weather.filterMap (fun w => w.date_id)

/-- Referential consistency of the store: every game row's two dimension
references and every weather row's non-NULL date reference resolve to an
existing dimension row. -/
def consistent (db : DB) : Prop :=
  (∀ g ∈ db.cfb_games,
      (∃ r ∈ db.dates, r.id = g.date_id) ∧ ∃ o ∈ db.opponents, o.id = g.opponent_id)
  ∧ ∀ w ∈ db.weather, ∀ i, w.date_id = some i → ∃ r ∈ db.dates, r.id = i

/-- `get_opponent_id` called 1 + n times against the same store, each call
starting from the store state the previous call left behind. -/
def resolveN : Nat → DB → String → Nat × DB
  | 0, db, name => get_opponent_id db name
  | n + 1, db, name => resolveN n (get_opponent_id db name).2 name

/-! ## Concrete fixtures used by counterexamples and witnesses -/

/-- The home-game record of the spec's first scenario (cfb.py's own unit
test `test_process_cfb_data_home_game`, after normalization). -/
def g_ex : Game := ⟨"2023-10-14", "Indiana", 52, 7, 1⟩

/-- The away-game record of cfb.py's own unit test
`test_process_cfb_data_away_game`. -/
def g_osu : RawGame :=
  ⟨some "2023-09-20T19:00Z", some "Ohio State", some "Michigan", some 24, some 30⟩

/-- A raw game record with every field missing. -/
def g_missing : RawGame := ⟨none, none, none, none, none⟩

/-- A store whose opponents dimension already holds "Indiana" with id 1. -/
def db_opp : DB := { emptyDB with opponents := [⟨1, "Indiana"⟩], next_opp_id := 2 }

/-- A remote-fetch oracle that always answers with the same well-formed
observation (weather.py's own unit test values for 2025-09-02,
measurements rounded to integers). -/
def fetch_const : String → Except PyErr RawWeather :=
  fun _ => .ok ⟨some ⟨some ["2025-09-01"], some [66], some [3], some [5], some [0]⟩⟩

/-- A remote-fetch oracle whose network call always raises. -/
def fetch_fail : String → Except PyErr RawWeather :=
  fun _ => .error .remoteFetchError

/-- A store whose dates dimension holds one day and whose weather table is
still empty. -/
def db_one_date : DB := { emptyDB with dates := [⟨1, "2025-09-01"⟩], next_date_id := 2 }

/-- The spec's weather scenario store: dates 2025-09-01/02 exist and
2025-09-01 already has a weather row. -/
def db_scen : DB :=
  { emptyDB with
      dates := [⟨1, "2025-09-01"⟩, ⟨2, "2025-09-02"⟩],
      weather := [⟨some 1, 60, 2, 4, 0⟩],
      next_date_id := 3 }

/-- 26 distinct candidate dates — one more than `BATCH_SIZE`. -/
def days26 : List String :=
  ["d01", "d02", "d03", "d04", "d05", "d06", "d07", "d08", "d09", "d10",
   "d11", "d12", "d13", "d14", "d15", "d16", "d17", "d18", "d19", "d20",
   "d21", "d22", "d23", "d24", "d25", "d26"]

/-- The store `add_data fetch_const ["a", "b"] emptyDB` commits: both days
are unresolvable, so both weather rows carry a NULL date reference. -/
def db_ab : DB :=
  { emptyDB with weather := [⟨none, 66, 3, 5, 0⟩, ⟨none, 66, 3, 5, 0⟩] }

/-- The store `add_data fetch_const ["a"] emptyDB` commits. -/
def db_a : DB := { emptyDB with weather := [⟨none, 66, 3, 5, 0⟩] }

/-- The store the spec's weather scenario ends in: only 2025-09-02 was
fetched and inserted. -/
def db_scen2 : DB := { db_scen with weather := db_scen.weather ++ [⟨some 2, 66, 3, 5, 0⟩] }

/-! ## Helper lemmas: `generate_dates` -/

theorem generate_dates_cons {s e : Nat} (h : s ≤ e) :
    generate_dates s e = s :: generate_dates (s + 7) e := by
  rw [generate_dates]
  simp [h]

theorem generate_dates_nil {s e : Nat} (h : e < s) :
    generate_dates s e = [] := by
  rw [generate_dates]
  simp [Nat.not_le.mpr h]

theorem generate_dates_mem (s e d : Nat) :
    d ∈ generate_dates s e ↔ ∃ k, d = s + 7 * k ∧ d ≤ e := by
  have key : ∀ n s e d, e + 1 - s ≤ n →
      (d ∈ generate_dates s e ↔ ∃ k, d = s + 7 * k ∧ d ≤ e) := by
    intro n
    induction n with
    | zero =>
      intro s e d h
      rw [generate_dates_nil (by omega)]
      simp only [List.not_mem_nil, false_iff]
      rintro ⟨k, rfl, hk⟩
      omega
    | succ n ih =>
      intro s e d h
      by_cases hse : s ≤ e
      · rw [generate_dates_cons hse]
        simp only [List.mem_cons, ih (s + 7) e d (by omega)]
        constructor
        · rintro (rfl | ⟨k, rfl, hk⟩)
          · exact ⟨0, by omega, hse⟩
          · exact ⟨k + 1, by omega, hk⟩
        · rintro ⟨k, rfl, hk⟩
          cases k with
          | zero => left; omega
          | succ k => right; exact ⟨k, by omega, hk⟩
      · rw [generate_dates_nil (by omega)]
        simp only [List.not_mem_nil, false_iff]
        rintro ⟨k, rfl, hk⟩
        omega
  exact key (e + 1 - s) s e d le_rfl

theorem generate_dates_sorted (s e : Nat) :
    List.Sorted (· < ·) (generate_dates s e) := by
  have key : ∀ n s e, e + 1 - s ≤ n → List.Sorted (· < ·) (generate_dates s e) := by
    intro n
    induction n with
    | zero =>
      intro s e h
      rw [generate_dates_nil (by omega)]
      exact List.sorted_nil
    | succ n ih =>
      intro s e h
      by_cases hse : s ≤ e
      · rw [generate_dates_cons hse]
        refine List.sorted_cons.mpr ⟨?_, ih (s + 7) e (by omega)⟩
        intro b hb
        obtain ⟨k, rfl, -⟩ := (generate_dates_mem (s + 7) e b).mp hb
        omega
      · rw [generate_dates_nil (by omega)]
        exact List.sorted_nil
  exact key (e + 1 - s) s e le_rfl

/-- C9: Candidate dates are generated weekly, not daily: for start ≤ end
(on day ordinals, the faithful image of well-formed `%Y-%m-%d` strings),
`generate_dates` returns exactly the dates start, start+7, start+14, ...
that are ≤ end, in strictly increasing order with first element start,
and returns the empty list when start > end. -/
theorem C9_generate_dates_weekly (s e : Nat) :
    (∀ d, d ∈ generate_dates s e ↔ ∃ k, d = s + 7 * k ∧ d ≤ e)
    ∧ List.Sorted (· < ·) (generate_dates s e)
    ∧ (s ≤ e → (generate_dates s e).head? = some s)
    ∧ (e < s → generate_dates s e = []) := by
  refine ⟨fun d => generate_dates_mem s e d, generate_dates_sorted s e, ?_, ?_⟩
  · intro h
    rw [generate_dates_cons h]
    rfl
  · intro h
    exact generate_dates_nil h

theorem C9_witness :
    (3 ≤ 20 ∧ (generate_dates 3 20).head? = some 3)
    ∧ (20 < 21 ∧ generate_dates 21 20 = []) :=
  ⟨⟨by decide, (C9_generate_dates_weekly 3 20).2.2.1 (by decide)⟩,
   ⟨by decide, (C9_generate_dates_weekly 21 20).2.2.2 (by decide)⟩⟩

/-! ## C1: re-running `store_cfb_data` with the same games -/

/-- C1: the claim says a second `store_cfb_data` call with the identical
candidate list inserts 0 new rows.  The code violates this: `rows_db =
cur.fetchall()` follows no `SELECT`, so the in-store key set `games_db`
is always empty and nothing is ever filtered out.  Evaluating at the
failing input: starting from an empty store and calling
`store_cfb_data [g_ex]` twice leaves TWO identical fact rows, and the
second call's inserted batch has length 1, not 0. -/
theorem C1_second_run_reinserts :
    (store_cfb_data [g_ex] (store_cfb_data [g_ex] emptyDB).1).1.cfb_games =
      [⟨1, 1, 52, 7, 1⟩, ⟨1, 1, 52, 7, 1⟩]
    ∧ (store_cfb_data [g_ex] (store_cfb_data [g_ex] emptyDB).1).2.length = 1 := by
  decide

/-! ## C10: team-mismatch normalization -/

/-- C10: whenever the (defaulted) homeTeam differs from the configured
TEAM — including records missing both team fields, which default to
"unknown" — `process_cfb_data` classifies the game as away (home = 0),
with opponent = homeTeam, points_for = awayPoints, points_against =
homePoints (missing scores defaulting to 0). -/
theorem C10_team_mismatch_away (g : RawGame) (TEAM : String)
    (pre post : List RawGame) (h : g.homeTeam.getD "unknown" ≠ TEAM) :
    process_cfb_data (pre ++ g :: post) TEAM
      = process_cfb_data pre TEAM
        ++ { date := dateClean (g.startDate.getD "unknown"),
             opponent := g.homeTeam.getD "unknown",
             points_for := g.awayPoints.getD 0,
             points_against := g.homePoints.getD 0,
             home := 0 } :: process_cfb_data post TEAM := by
  simp only [process_cfb_data, List.map_append, List.map_cons]
  congr 2
  simp only [process_cfb_game]
  rw [if_neg h]

theorem C10_witness :
    process_cfb_data ([] ++ g_osu :: []) "Michigan"
      = process_cfb_data [] "Michigan"
        ++ { date := dateClean (g_osu.startDate.getD "unknown"),
             opponent := g_osu.homeTeam.getD "unknown",
             points_for := g_osu.awayPoints.getD 0,
             points_against := g_osu.homePoints.getD 0,
             home := 0 } :: process_cfb_data [] "Michigan" :=
  C10_team_mismatch_away g_osu "Michigan" [] [] (by decide)

/-! ## C6: idempotent dimension resolution -/

theorem get_opponent_id_found {db : DB} {name : String} {r : OppRow}
    (hf : db.opponents.find? (fun x => x.name == name) = some r) :
    get_opponent_id db name = (r.id, db) := by
  unfold get_opponent_id
  rw [hf]

theorem get_opponent_id_not_found {db : DB} {name : String}
    (hf : db.opponents.find? (fun x => x.name == name) = none) :
    get_opponent_id db name =
      (db.next_opp_id,
       { db with
          opponents := db.opponents ++ [⟨db.next_opp_id, name⟩],
          next_opp_id := db.next_opp_id + 1 }) := by
  unfold get_opponent_id
  rw [hf]

/-- Resolving the same name a second time from the state produced by the
first resolution returns the same id and leaves the store unchanged. -/
theorem get_opponent_id_stable (db : DB) (name : String) :
    get_opponent_id (get_opponent_id db name).2 name = get_opponent_id db name := by
  cases hf : db.opponents.find? (fun x => x.name == name) with
  | some r =>
    rw [get_opponent_id_found hf]
    exact get_opponent_id_found hf
  | none =>
    rw [get_opponent_id_not_found hf]
    have hf' :
        (db.opponents ++ [(⟨db.next_opp_id, name⟩ : OppRow)]).find?
          (fun x => x.name == name) = some ⟨db.next_opp_id, name⟩ := by
      rw [List.find?_append, hf]
      simp
    rw [get_opponent_id_found hf']

theorem resolveN_eq (n : Nat) (db : DB) (name : String) :
    resolveN n db name = get_opponent_id db name := by
  induction n generalizing db with
  | zero => rfl
  | succ n ih =>
    show resolveN n (get_opponent_id db name).2 name = _
    rw [ih, get_opponent_id_stable]

/-- C6: dimension resolution is idempotent: resolving the same opponent
name 1 + n times returns the same surrogate id and the same store every
time, grows the opponents table by at most one row however many times it
is called, a lookup that finds the key returns the stored id without
touching the store, and an insert happens only when the key is absent. -/
theorem C6_resolver_idempotent (db : DB) (name : String) (n : Nat) :
    resolveN n db name = get_opponent_id db name
    ∧ (resolveN n db name).2.opponents.length ≤ db.opponents.length + 1
    ∧ (∀ r, db.opponents.find? (fun x => x.name == name) = some r →
        get_opponent_id db name = (r.id, db))
    ∧ (db.opponents.find? (fun x => x.name == name) = none →
        (get_opponent_id db name).2.opponents
          = db.opponents ++ [⟨db.next_opp_id, name⟩]) := by
  refine ⟨resolveN_eq n db name, ?_, ?_, ?_⟩
  · rw [resolveN_eq]
    cases hf : db.opponents.find? (fun x => x.name == name) with
    | some r => rw [get_opponent_id_found hf]; exact Nat.le_succ _
    | none => rw [get_opponent_id_not_found hf]; simp
  · intro r hf
    exact get_opponent_id_found hf
  · intro hf
    rw [get_opponent_id_not_found hf]

theorem C6_witness : get_opponent_id db_opp "Indiana" = (1, db_opp) :=
  (C6_resolver_idempotent db_opp "Indiana" 0).2.2.1 ⟨1, "Indiana"⟩ (by decide)

/-! ## C8: the normalizers -/

/-- `dateClean` always yields the prefix of its input before the first
'T' (the whole input when there is none). -/
theorem dateClean_data (s : String) :
    (dateClean s).data = s.data.takeWhile (fun c => c ≠ 'T') := by
  unfold dateClean
  by_cases h : s.data.contains 'T'
  · rw [if_pos h]
  · rw [if_neg h]
    have h' : 'T' ∉ s.data := fun hm => h (List.elem_eq_true_of_mem hm)
    refine (List.takeWhile_eq_self_iff.mpr ?_).symm
    intro c hc
    simp only [ne_eq, decide_not, Bool.not_eq_true', decide_eq_false_iff_not]
    rintro rfl
    exact h' hc

theorem dateClean_no_T (s : String) : 'T' ∉ (dateClean s).data := by
  rw [dateClean_data]
  intro hm
  have := List.mem_takeWhile_imp hm
  simp at this

theorem process_cfb_game_date (g : RawGame) (TEAM : String) :
    (process_cfb_game g TEAM).date = dateClean (g.startDate.getD "unknown") := by
  simp only [process_cfb_game]
  split <;> rfl

/-- C8 (amended): `process_cfb_data` is total and best-effort — one
output per input, opponent defaulting to "unknown", scores defaulting
to 0, dates truncated at the first 'T' (so no output date carries a
time-of-day component), a record with no date field tagged "unknown" —
while `process_weather_data` is NOT: a response whose daily block is
missing raises instead of defaulting, and when all five daily arrays are
present and non-empty it returns their first elements unchanged (no
zero-substitution). -/
theorem C8_normalizers_best_effort (raws : List RawGame) (TEAM : String)
    (g : RawGame) (x1 : String) (l1 : List String)
    (x2 x3 x4 x5 : Int) (l2 l3 l4 l5 : List Int) :
    (process_cfb_data raws TEAM).length = raws.length
    ∧ (∀ rec ∈ process_cfb_data raws TEAM, 'T' ∉ rec.date.data)
    ∧ ((process_cfb_game g TEAM).date).data
        = (g.startDate.getD "unknown").data.takeWhile (fun c => c ≠ 'T')
    ∧ (g.startDate = none → (process_cfb_game g TEAM).date = "unknown")
    ∧ (g.homeTeam = none → g.awayTeam = none →
        (process_cfb_game g TEAM).opponent = "unknown")
    ∧ (g.homePoints = none → g.awayPoints = none →
        (process_cfb_game g TEAM).points_for = 0
        ∧ (process_cfb_game g TEAM).points_against = 0)
    ∧ process_weather_data ⟨none⟩ = .error .keyError
    ∧ process_weather_data
        ⟨some ⟨some (x1 :: l1), some (x2 :: l2), some (x3 :: l3),
               some (x4 :: l4), some (x5 :: l5)⟩⟩
        = .ok ⟨x1, x2, x3, x4, x5⟩ := by
  refine ⟨by simp [process_cfb_data], ?_, ?_, ?_, ?_, ?_, rfl, rfl⟩
  · intro rec hrec
    simp only [process_cfb_data, List.mem_map] at hrec
    obtain ⟨g', -, rfl⟩ := hrec
    rw [process_cfb_game_date]
    exact dateClean_no_T _
  · rw [process_cfb_game_date]
    exact dateClean_data _
  · intro h
    rw [process_cfb_game_date, h]
    decide
  · intro h1 h2
    simp only [process_cfb_game, h1, h2]
    split <;> rfl
  · intro h1 h2
    simp only [process_cfb_game, h1, h2]
    split <;> exact ⟨rfl, rfl⟩

/-! ## Helper lemmas: the `store_cfb_data` loop -/

theorem get_date_id_some {db : DB} {day : String} {i : Nat}
    (h : get_date_id db day = some i) :
    ∃ r ∈ db.dates, r.id = i ∧ r.day = day := by
  unfold get_date_id at h
  obtain ⟨r, hfind, hid⟩ := Option.map_eq_some'.mp h
  refine ⟨r, List.mem_of_find?_eq_some hfind, hid, ?_⟩
  have := List.find?_some hfind
  simpa using this

theorem get_opponent_id_spec (db : DB) (name : String) :
    (get_opponent_id db name).2.dates = db.dates
    ∧ (get_opponent_id db name).2.cfb_games = db.cfb_games
    ∧ (get_opponent_id db name).2.weather = db.weather
    ∧ (∀ o ∈ db.opponents, o ∈ (get_opponent_id db name).2.opponents)
    ∧ (∃ o ∈ (get_opponent_id db name).2.opponents,
        o.id = (get_opponent_id db name).1) := by
  cases hf : db.opponents.find? (fun x => x.name == name) with
  | some r =>
    rw [get_opponent_id_found hf]
    exact ⟨rfl, rfl, rfl, fun o ho => ho, r, List.mem_of_find?_eq_some hf, rfl⟩
  | none =>
    rw [get_opponent_id_not_found hf]
    exact ⟨rfl, rfl, rfl, fun o ho => List.mem_append_left _ ho,
      ⟨db.next_opp_id, name⟩,
      List.mem_append_right _ (List.mem_singleton_self _), rfl⟩

theorem resolve_game_date_spec (db : DB) (day : String) :
    (resolve_game_date db day).2.opponents = db.opponents
    ∧ (resolve_game_date db day).2.cfb_games = db.cfb_games
    ∧ (resolve_game_date db day).2.weather = db.weather
    ∧ (∀ r ∈ db.dates, r ∈ (resolve_game_date db day).2.dates)
    ∧ (∃ r ∈ (resolve_game_date db day).2.dates,
        r.id = (resolve_game_date db day).1) := by
  unfold resolve_game_date
  cases hg : get_date_id db day with
  | some i =>
    obtain ⟨r, hr, hid, -⟩ := get_date_id_some hg
    exact ⟨rfl, rfl, rfl, fun r hr => hr, r, hr, hid⟩
  | none =>
    unfold insert_date
    exact ⟨rfl, rfl, rfl, fun r hr => List.mem_append_left _ hr,
      ⟨db.next_date_id, day⟩,
      List.mem_append_right _ (List.mem_singleton_self _), rfl⟩

theorem rowRefs_mono {db db' : DB} (hd : ∀ r ∈ db.dates, r ∈ db'.dates)
    (ho : ∀ o ∈ db.opponents, o ∈ db'.opponents) {row : GameRow}
    (h : rowRefs db row) : rowRefs db' row := by
  obtain ⟨⟨r, hr, hrid⟩, o, hoo, hoid⟩ := h
  exact ⟨⟨r, hd r hr, hrid⟩, o, ho o hoo, hoid⟩

theorem store_cfb_loop_cons (g : Game) (rest : List Game) (db : DB)
    (ins : List GameRow) :
    store_cfb_loop (g :: rest) db ins =
      store_cfb_loop rest (resolve_game_date (get_opponent_id db g.opponent).2 g.date).2
        (ins ++ [⟨(resolve_game_date (get_opponent_id db g.opponent).2 g.date).1,
                  (get_opponent_id db g.opponent).1,
                  g.points_for, g.points_against, g.home⟩]) := rfl

/-- Everything the claims need about one run of the `store_cfb_data`
loop: the dimension tables only grow, the fact tables are untouched, the
accumulated `inserts` list grows by exactly one row per processed game,
and every accumulated row's dimension references resolve in the final
loop state. -/
theorem store_cfb_loop_spec (batch : List Game) (db : DB) (ins : List GameRow) :
    (∀ r ∈ db.dates, r ∈ (store_cfb_loop batch db ins).1.dates)
    ∧ (∀ o ∈ db.opponents, o ∈ (store_cfb_loop batch db ins).1.opponents)
    ∧ (store_cfb_loop batch db ins).1.cfb_games = db.cfb_games
    ∧ (store_cfb_loop batch db ins).1.weather = db.weather
    ∧ (store_cfb_loop batch db ins).2.length = ins.length + batch.length
    ∧ (∃ extra, (store_cfb_loop batch db ins).2 = ins ++ extra)
    ∧ ((∀ row ∈ ins, rowRefs db row) →
        ∀ row ∈ (store_cfb_loop batch db ins).2,
          rowRefs (store_cfb_loop batch db ins).1 row) := by
  induction batch generalizing db ins with
  | nil =>
    refine ⟨fun r hr => hr, fun o ho => ho, rfl, rfl, by simp [store_cfb_loop], ⟨[], by simp [store_cfb_loop]⟩, ?_⟩
    intro h row hrow
    exact h row hrow
  | cons g rest ih =>
    rw [store_cfb_loop_cons]
    obtain ⟨hd1, hc1, hw1, hoMono, o, hoMem, hoId⟩ := get_opponent_id_spec db g.opponent
    obtain ⟨ho2, hc2, hw2, hdMono, r, hrMem, hrId⟩ :=
      resolve_game_date_spec (get_opponent_id db g.opponent).2 g.date
    obtain ⟨ihd, iho, ihc, ihw, ihlen, ⟨extra, ihext⟩, ihref⟩ :=
      ih (resolve_game_date (get_opponent_id db g.opponent).2 g.date).2
        (ins ++ [⟨(resolve_game_date (get_opponent_id db g.opponent).2 g.date).1,
                  (get_opponent_id db g.opponent).1,
                  g.points_for, g.points_against, g.home⟩])
    refine ⟨?_, ?_, ?_, ?_, ?_, ?_, ?_⟩
    · intro x hx
      exact ihd x (hdMono x (hd1 ▸ hx))
    · intro x hx
      exact iho x (ho2 ▸ hoMono x hx)
    · rw [ihc, hc2, hc1]
    · rw [ihw, hw2, hw1]
    · rw [ihlen]
      simp
      omega
    · exact ⟨[⟨(resolve_game_date (get_opponent_id db g.opponent).2 g.date).1,
               (get_opponent_id db g.opponent).1,
               g.points_for, g.points_against, g.home⟩] ++ extra,
        by rw [ihext, List.append_assoc]⟩
    · intro h
      refine ihref ?_
      intro row hrow
      rcases List.mem_append.mp hrow with hold | hnew
      · refine rowRefs_mono ?_ ?_ (h row hold)
        · intro x hx
          exact hdMono x (hd1 ▸ hx)
        · intro x hx
          exact ho2 ▸ hoMono x hx
      · rcases List.mem_singleton.mp hnew with rfl
        exact ⟨⟨r, hrMem, hrId⟩, o, ho2 ▸ hoMem, hoId⟩

/-- The novelty filter of `store_cfb_data` is inoperative: `games_db` is
always empty, so `remaining` is the whole candidate list. -/
theorem store_cfb_remaining (games : List Game) :
    games.filter (fun g =>
      !(([] : List (String × String × Int × Int × Int)).contains
        (g.date, g.opponent, g.points_for, g.points_against, g.home))) = games := by
  simp

theorem store_cfb_data_eq (games : List Game) (db : DB) :
    store_cfb_data games db =
      ({ (store_cfb_loop (games.take 25) db []).1 with
          cfb_games := (store_cfb_loop (games.take 25) db []).1.cfb_games
            ++ (store_cfb_loop (games.take 25) db []).2 },
       games.take 25) := by
  unfold store_cfb_data
  dsimp only
  rw [store_cfb_remaining]

/-! ## Helper lemmas: the `add_data` loop -/

theorem get_date_id_congr {db db' : DB} (h : db'.dates = db.dates) (day : String) :
    get_date_id db' day = get_date_id db day := by
  unfold get_date_id
  rw [h]

/-- A successful run of the `add_data` loop only appends weather rows,
one per day, each carrying the date id the day resolved to in the
initial store (the loop never modifies the dates dimension). -/
theorem add_data_loop_ok (fetch : String → Except PyErr RawWeather) :
    ∀ (days : List String) (db db₂ : DB),
      add_data_loop fetch db days = .ok db₂ →
      ∃ rows, db₂ = { db with weather := db.weather ++ rows }
        ∧ rows.map (fun w => w.date_id) = days.map (get_date_id db) := by
  intro days
  induction days with
  | nil =>
    intro db db₂ h
    cases h
    exact ⟨[], by simp, by simp⟩
  | cons day rest ih =>
    intro db db₂ h
    rw [add_data_loop] at h
    cases hf : fetch day with
    | error e => rw [hf] at h; cases h
    | ok raw =>
      rw [hf] at h
      dsimp only at h
      cases hp : process_weather_data raw with
      | error e => rw [hp] at h; cases h
      | ok cleaned =>
        rw [hp] at h
        dsimp only at h
        obtain ⟨rows, hdb, hmap⟩ := ih _ _ h
        refine ⟨⟨get_date_id db day, cleaned.temp_mean, cleaned.wind_speed,
                 cleaned.cloud_cover, cleaned.precipitation⟩ :: rows, ?_, ?_⟩
        · rw [hdb]
          simp
        · simp only [List.map_cons]
          exact congrArg (List.cons (get_date_id db day)) hmap

/-- The `add_data` loop consults the fetch oracle only on the days of its
batch. -/
theorem add_data_loop_congr {f g : String → Except PyErr RawWeather} :
    ∀ (days : List String) (db : DB), (∀ d ∈ days, f d = g d) →
      add_data_loop f db days = add_data_loop g db days := by
  intro days
  induction days with
  | nil => intro db h; rfl
  | cons day rest ih =>
    intro db h
    rw [add_data_loop, add_data_loop, h day (List.mem_cons_self day rest)]
    cases g day with
    | error e => rfl
    | ok raw =>
      dsimp only
      cases hp : process_weather_data raw with
      | error e => rfl
      | ok cleaned => exact ih _ (fun d hd => h d (List.mem_cons_of_mem _ hd))

theorem add_data_ok {fetch : String → Except PyErr RawWeather}
    {days : List String} {db db' : DB} {batch : List String}
    (h : add_data fetch days db = .ok (db', batch)) :
    batch = (filter_new days db).take BATCH_SIZE
    ∧ ∃ rows, db' = { db with weather := db.weather ++ rows }
        ∧ rows.map (fun w => w.date_id) = batch.map (get_date_id db) := by
  unfold add_data at h
  dsimp only at h
  cases hl : add_data_loop fetch db ((filter_new days db).take BATCH_SIZE) with
  | error e => rw [hl] at h; cases h
  | ok dbl =>
    rw [hl] at h
    simp only [Except.ok.injEq, Prod.mk.injEq] at h
    obtain ⟨rfl, rfl⟩ := h
    exact ⟨rfl, add_data_loop_ok fetch _ db dbl hl⟩

theorem add_data_congr {f g : String → Except PyErr RawWeather}
    (days : List String) (db : DB)
    (h : ∀ d ∈ (filter_new days db).take BATCH_SIZE, f d = g d) :
    add_data f days db = add_data g days db := by
  unfold add_data
  dsimp only
  rw [add_data_loop_congr _ db h]

theorem mem_grab_dates {db : DB} {day : String} :
    day ∈ grab_dates db ↔
      ∃ r ∈ db.dates, r.day = day ∧ ∃ w ∈ db.weather, w.date_id = some r.id := by
  unfold grab_dates
  simp only [List.mem_map, List.mem_filter, List.any_eq_true, beq_iff_eq]
  constructor
  · rintro ⟨r, ⟨hr, w, hw, hwid⟩, rfl⟩
    exact ⟨r, hr, rfl, w, hw, hwid⟩
  · rintro ⟨r, hr, rfl, w, hw, hwid⟩
    exact ⟨r, ⟨hr, w, hw, hwid⟩, rfl⟩

theorem mem_filter_new {db : DB} {days : List String} {day : String} :
    day ∈ filter_new days db ↔ day ∈ days ∧ day ∉ grab_dates db := by
  unfold filter_new
  simp [List.mem_filter]

theorem filter_new_sublist (days : List String) (db : DB) :
    List.Sublist (filter_new days db) days :=
  List.filter_sublist days

theorem grab_dates_nil {db : DB} (h : db.weather = []) : grab_dates db = [] := by
  unfold grab_dates
  rw [h]
  simp

theorem filter_new_of_no_weather {days : List String} {db : DB}
    (h : db.weather = []) : filter_new days db = days := by
  unfold filter_new
  rw [grab_dates_nil h]
  simp

theorem filterMap_eq_of_map_eq {α β γ : Type} {f : α → Option γ} {g : β → Option γ}
    {l1 : List α} {l2 : List β} (h : l1.map f = l2.map g) :
    l1.filterMap f = l2.filterMap g := by
  induction l1 generalizing l2 with
  | nil =>
    cases l2 with
    | nil => rfl
    | cons b t => simp at h
  | cons a t ih =>
    cases l2 with
    | nil => simp at h
    | cons b t2 =>
      simp only [List.map_cons, List.cons.injEq] at h
      rw [List.filterMap_cons, List.filterMap_cons, h.1, ih h.2]

/-! ## C5: all-or-nothing batch commits -/

/-- C5: batch commits are all-or-nothing.  If any step of `add_data`
(remote fetch or normalization of any item) raises, the commit after the
loop is never reached and the visible store is exactly the
last-committed state; on success the whole batch of weather rows lands
in a single append with no other table touched.  `store_cfb_data`
likewise performs its only fact-table change as one single append of the
whole batch after the loop. -/
theorem C5_batch_atomicity (fetch : String → Except PyErr RawWeather)
    (days : List String) (db : DB) (games : List Game) :
    (∀ e, add_data fetch days db = .error e → run_add_data fetch days db = db)
    ∧ (∀ db' batch, add_data fetch days db = .ok (db', batch) →
        ∃ rows, rows.length = batch.length
          ∧ db'.weather = db.weather ++ rows
          ∧ db'.dates = db.dates ∧ db'.opponents = db.opponents
          ∧ db'.cfb_games = db.cfb_games)
    ∧ (∃ rows, rows.length = (store_cfb_data games db).2.length
        ∧ (store_cfb_data games db).1.cfb_games = db.cfb_games ++ rows) := by
  refine ⟨?_, ?_, ?_⟩
  · intro e h
    unfold run_add_data
    rw [h]
  · intro db' batch h
    obtain ⟨hbatch, rows, hdb, hmap⟩ := add_data_ok h
    subst hdb
    refine ⟨rows, ?_, rfl, rfl, rfl, rfl⟩
    simpa using congrArg List.length hmap
  · obtain ⟨-, -, hc, -, hlen, -, -⟩ := store_cfb_loop_spec (games.take 25) db []
    refine ⟨(store_cfb_loop (games.take 25) db []).2, ?_, ?_⟩
    · rw [store_cfb_data_eq]
      simpa using hlen
    · rw [store_cfb_data_eq]
      dsimp only
      rw [hc]

theorem C5_witness : run_add_data fetch_fail ["x"] emptyDB = emptyDB :=
  (C5_batch_atomicity fetch_fail ["x"] emptyDB []).1 .remoteFetchError rfl

/-! ## C7: the batch size bound -/

/-- C7: one invocation of `store_cfb_data` inserts at most 25 fact rows;
one invocation of `add_data` inserts at most 25 weather rows
(`BATCH_SIZE`), its batch has at most 25 days, and its behavior depends
on the remote fetch oracle only through those at-most-25 batch days (so
it makes at most 25 remote fetches). -/
theorem C7_batch_bound (games : List Game) (db : DB)
    (fetch : String → Except PyErr RawWeather) (days : List String) :
    (store_cfb_data games db).1.cfb_games.length ≤ db.cfb_games.length + 25
    ∧ (∀ db' batch, add_data fetch days db = .ok (db', batch) →
        db'.weather.length ≤ db.weather.length + 25 ∧ batch.length ≤ 25)
    ∧ ((filter_new days db).take BATCH_SIZE).length ≤ 25
    ∧ (∀ f g, (∀ d ∈ (filter_new days db).take BATCH_SIZE, f d = g d) →
        add_data f days db = add_data g days db) := by
  refine ⟨?_, ?_, List.length_take_le _ _, fun f g h => add_data_congr days db h⟩
  · obtain ⟨-, -, hc, -, hlen, -, -⟩ := store_cfb_loop_spec (games.take 25) db []
    have h25 : (games.take 25).length ≤ 25 := List.length_take_le 25 games
    rw [store_cfb_data_eq]
    dsimp only
    rw [List.length_append, hc]
    simp only [List.length_nil, Nat.zero_add] at hlen
    omega
  · intro db' batch h
    obtain ⟨hbatch, rows, hdb, hmap⟩ := add_data_ok h
    have hlb : batch.length ≤ 25 := by
      rw [hbatch]
      exact List.length_take_le _ _
    subst hdb
    refine ⟨?_, hlb⟩
    dsimp only
    rw [List.length_append]
    have : rows.length = batch.length := by simpa using congrArg List.length hmap
    omega

theorem C7_witness :
    db_a.weather.length ≤ emptyDB.weather.length + 25
    ∧ (["a"] : List String).length ≤ 25 :=
  (C7_batch_bound [] emptyDB fetch_const ["a"]).2.1 db_a ["a"] rfl

/-! ## C4: the weather novelty filter -/

/-- C4 counterexample: the claim says `add_data` inserts exactly those
candidate dates not already present, for every candidate list.  With 26
novel candidates and an empty store the filter keeps all 26 but
`add_data` fetches and inserts only the first 25 (`BATCH_SIZE`
truncation), so "exactly" fails. -/
theorem C4_counterexample :
    (run_add_data fetch_const days26 emptyDB).weather.length = 25
    ∧ (filter_new days26 emptyDB).length = 26 := by decide

/-- C4 (amended): the weather novelty filter is an order-preserving
set-difference, truncated to the batch limit: `add_data` fetches and
inserts exactly the first `BATCH_SIZE` (25) of the candidate dates not
already present (recovered by joining Weather to the dates dimension),
in the candidates' original relative order; a date already present is
neither fetched (the oracle is only consulted on batch days) nor
inserted, and when the store has no weather rows the filter keeps every
candidate. -/
theorem C4_filter_order_preserving (fetch : String → Except PyErr RawWeather)
    (days : List String) (db db' : DB) (batch : List String)
    (hok : add_data fetch days db = .ok (db', batch)) :
    batch = (filter_new days db).take BATCH_SIZE
    ∧ (∀ d, d ∈ filter_new days db ↔ d ∈ days ∧ d ∉ grab_dates db)
    ∧ List.Sublist (filter_new days db) days
    ∧ (db.weather = [] → filter_new days db = days)
    ∧ db'.weather.length = db.weather.length + batch.length
    ∧ (∀ d ∈ grab_dates db, d ∉ batch)
    ∧ (∀ f g, (∀ d ∈ batch, f d = g d) → add_data f days db = add_data g days db) := by
  obtain ⟨hbatch, rows, hdb, hmap⟩ := add_data_ok hok
  refine ⟨hbatch, fun d => mem_filter_new, filter_new_sublist days db,
    fun h => filter_new_of_no_weather h, ?_, ?_, ?_⟩
  · subst hdb
    dsimp only
    rw [List.length_append]
    have : rows.length = batch.length := by simpa using congrArg List.length hmap
    omega
  · intro d hd hdbatch
    rw [hbatch] at hdbatch
    exact (mem_filter_new.mp (List.mem_of_mem_take hdbatch)).2 hd
  · intro f g h
    rw [hbatch] at h
    exact add_data_congr days db h

theorem C4_witness :
    (["2025-09-02"] : List String)
      = (filter_new ["2025-09-01", "2025-09-02"] db_scen).take BATCH_SIZE :=
  (C4_filter_order_preserving fetch_const ["2025-09-01", "2025-09-02"] db_scen
      db_scen2 ["2025-09-02"] rfl).1

/-! ## C2: at most one weather row per date -/

/-- C2 counterexample: the claim quantifies over candidate lists that
contain a repeated date.  Feeding the same day twice in one `add_data`
call (the store's dates dimension holds it, its weather table is empty)
commits TWO weather rows carrying the same date_id: the novelty filter
only compares against the store, not within the batch, and the `INSERT
OR IGNORE` has no uniqueness constraint to act on. -/
theorem C2_counterexample :
    (run_add_data fetch_const ["2025-09-01", "2025-09-01"] db_one_date).weather.map
      (fun w => w.date_id) = [some 1, some 1] := by decide

/-- C2 (amended): provided the dates dimension is well-formed (no two
rows share an id — sqlite's primary key) and the candidate list contains
no repeated date, a successful `add_data` run preserves the invariant
that no two weather rows carry the same non-NULL date_id; starting from
a store satisfying it (e.g. an empty one), every such sequence of
invocations maintains at most one weather row per synchronized date. -/
theorem C2_weather_unique_per_date (fetch : String → Except PyErr RawWeather)
    (days : List String) (db db' : DB) (batch : List String)
    (hwf : dates_wf db) (hnd : days.Nodup)
    (hinv : (weather_date_ids db).Nodup)
    (hok : add_data fetch days db = .ok (db', batch)) :
    (weather_date_ids db').Nodup := by
  obtain ⟨hbatch, rows, hdb, hmap⟩ := add_data_ok hok
  have hids : weather_date_ids db'
      = weather_date_ids db ++ batch.filterMap (get_date_id db) := by
    subst hdb
    unfold weather_date_ids
    dsimp only
    rw [List.filterMap_append]
    congr 1
    exact filterMap_eq_of_map_eq hmap
  rw [hids, List.nodup_append]
  refine ⟨hinv, ?_, ?_⟩
  · have hbnd : batch.Nodup := by
      rw [hbatch]
      exact (List.take_sublist _ _).nodup (List.Nodup.filter _ hnd)
    refine List.Nodup.filterMap ?_ hbnd
    intro a a' b hb hb'
    rw [Option.mem_def] at hb hb'
    obtain ⟨r1, hr1, hid1, hday1⟩ := get_date_id_some hb
    obtain ⟨r2, hr2, hid2, hday2⟩ := get_date_id_some hb'
    have hr12 : r1 = r2 :=
      List.inj_on_of_nodup_map hwf hr1 hr2 (by rw [hid1, hid2])
    rw [← hday1, hr12, hday2]
  · intro i hi1 hi2
    obtain ⟨d, hd, hgd⟩ := List.mem_filterMap.mp hi2
    obtain ⟨r, hr, hid, hday⟩ := get_date_id_some hgd
    unfold weather_date_ids at hi1
    obtain ⟨w, hw, hwid⟩ := List.mem_filterMap.mp hi1
    have hdm : d ∈ grab_dates db :=
      mem_grab_dates.mpr ⟨r, hr, hday, w, hw, by rw [hwid, hid]⟩
    have hdfn : d ∈ filter_new days db := by
      rw [hbatch] at hd
      exact List.mem_of_mem_take hd
    exact (mem_filter_new.mp hdfn).2 hdm

theorem C2_witness : (weather_date_ids db_ab).Nodup :=
  C2_weather_unique_per_date fetch_const ["a", "b"] emptyDB db_ab ["a", "b"]
    (by simp [dates_wf, emptyDB]) (by decide) (by simp [weather_date_ids, emptyDB]) rfl

/-! ## C3: no dangling dimension references -/

/-- C3 counterexample: the claim says a failed dimension resolution
aborts the whole batch rather than inserting a fact without its key.
Syncing a day absent from the dates dimension instead COMMITS a weather
row whose date_id is NULL (the store ends with one weather row and no
date row), so the batch is not aborted. -/
theorem C3_counterexample :
    (run_add_data fetch_const ["x"] emptyDB).weather.map (fun w => w.date_id) = [none]
    ∧ (run_add_data fetch_const ["x"] emptyDB).dates = [] := by decide

/-- C3 (amended): the sync engine preserves referential consistency of
non-NULL references: starting from a consistent store, after any
`store_cfb_data` run every committed game row's date_id and opponent_id
refer to existing dimension rows (a missing date is inserted on the fly,
not aborted), and after any successful `add_data` run every committed
weather row's date_id is either NULL — the code's behavior when
resolution fails, instead of the claimed abort — or refers to an
existing date row. -/
theorem C3_referential_consistency (db : DB) (hc : consistent db) :
    (∀ games, consistent (store_cfb_data games db).1)
    ∧ (∀ fetch days db' batch,
        add_data fetch days db = .ok (db', batch) → consistent db') := by
  constructor
  · intro games
    obtain ⟨hdm, hom, hcg, hwe, -, -, href⟩ := store_cfb_loop_spec (games.take 25) db []
    rw [store_cfb_data_eq]
    constructor
    · intro g hg
      dsimp only at hg ⊢
      rcases List.mem_append.mp hg with hold | hnew
      · rw [hcg] at hold
        obtain ⟨⟨r, hr, hrid⟩, o, ho, hoid⟩ := hc.1 g hold
        exact ⟨⟨r, hdm r hr, hrid⟩, o, hom o ho, hoid⟩
      · have := href (fun row h => absurd h (List.not_mem_nil row)) g hnew
        exact this
    · intro w hw i hwid
      dsimp only at hw ⊢
      rw [hwe] at hw
      obtain ⟨r, hr, hid⟩ := hc.2 w hw i hwid
      exact ⟨r, hdm r hr, hid⟩
  · intro fetch days db' batch hok
    obtain ⟨hbatch, rows, hdb, hmap⟩ := add_data_ok hok
    subst hdb
    constructor
    · intro g hg
      exact hc.1 g hg
    · intro w hw i hwid
      dsimp only at hw ⊢
      rcases List.mem_append.mp hw with hold | hnew
      · exact hc.2 w hold i hwid
      · have hmem : w.date_id ∈ rows.map (fun w => w.date_id) :=
          List.mem_map_of_mem _ hnew
        rw [hmap] at hmem
        obtain ⟨d, hd, hgd⟩ := List.mem_map.mp hmem
        obtain ⟨r, hr, hid, -⟩ := get_date_id_some (show get_date_id db d = some i by
          rw [hgd, hwid])
        exact ⟨r, hr, hid⟩

theorem C3_witness : consistent (store_cfb_data [g_ex] emptyDB).1 :=
  (C3_referential_consistency emptyDB (by simp [consistent, emptyDB])).1 [g_ex]

/-- C8 counterexample: the claim says the normalizers never raise and
substitute a zero measurement for a missing weather field; but a
response whose daily block lacks the temperature array makes
`process_weather_data` raise `KeyError` (Python line 67 subscripts the
missing key directly). -/
theorem C8_counterexample :
    process_weather_data ⟨some ⟨some ["2025-09-02"], none, none, none, none⟩⟩
      = .error .keyError := rfl

theorem C8_witness :
    (process_cfb_game g_missing "Michigan").date = "unknown"
    ∧ (process_cfb_game g_missing "Michigan").opponent = "unknown"
    ∧ (process_cfb_game g_missing "Michigan").points_for = 0
    ∧ (process_cfb_game g_missing "Michigan").points_against = 0 :=
  ⟨(C8_normalizers_best_effort [] "Michigan" g_missing "" [] 0 0 0 0 [] [] [] []).2.2.2.1
      rfl,
   (C8_normalizers_best_effort [] "Michigan" g_missing "" [] 0 0 0 0 [] [] [] []).2.2.2.2.1
      rfl rfl,
   ((C8_normalizers_best_effort [] "Michigan" g_missing "" [] 0 0 0 0 [] [] [] []).2.2.2.2.2.1
      rfl rfl).1,
   ((C8_normalizers_best_effort [] "Michigan" g_missing "" [] 0 0 0 0 [] [] [] []).2.2.2.2.2.1
      rfl rfl).2⟩

end SI201
